import Mathlib

set_option maxRecDepth 1000000

/-!
Verification of the signal-generation and paper-trading logic of
`projects/trading-bot/micro_scalp_bot_v2.py` (and, where noted, the earlier
variant `micro_scalp_bot.py`).

Modelling conventions:
* Python floats are modelled as exact rationals (`ℚ`); the arithmetic in the
  source is ordinary field arithmetic, so every formula transfers verbatim.
* Fallible functions (`Optional[float]` in the source) become `Option ℚ`.
* `numpy.std` (population standard deviation) is the real square root of the
  exact rational variance; see `npVariance` and the bridge lemmas relating the
  computable Bollinger-band threshold tests to the real-valued definition.
* Wall-clock timestamps, logging, the SQLite mirror of the trade ledger and
  the free-text `reason` strings do not influence any computed value and are
  not modelled (reasons are kept only where they are fixed literals).
-/

/-- Python list slice `xs[-n:]`: the last `n` elements (for `n ≥ 1`; every
call site in the source uses a positive window). -/
def lastN (n : Nat) (xs : List α) : List α := xs.drop (xs.length - n)

/-- Arithmetic mean `sum(xs) / len(xs)` (Python raises on `[]`; all uses are
guarded by non-emptiness). -/
def mean (xs : List ℚ) : ℚ := xs.sum / xs.length

/-- Python `max` over a non-empty list. -/
def listMax (xs : List ℚ) : ℚ := xs.foldl max (xs.headD 0)

/-- Python `min` over a non-empty list. -/
def listMin (xs : List ℚ) : ℚ := xs.foldl min (xs.headD 0)

/-- The list of consecutive differences `prices[i] - prices[i-1]`. -/
def changes : List ℚ → List ℚ
  | a :: b :: rest => (b - a) :: changes (b :: rest)
  | _ => []

/-- One candlestick.  The source keeps candles as dicts with keys
`timestamp/open/high/low/close/volume/...`; only these four fields are read by
the functions modelled here. -/
structure Candle where
  high : ℚ
  low : ℚ
  close : ℚ
  volume : ℚ
deriving DecidableEq

namespace TechnicalIndicators

/-- `TechnicalIndicators.calculate_sma` (micro_scalp_bot_v2.py): `None` when
fewer than `period` prices exist, otherwise the mean of the last `period`. -/
def calculate_sma (prices : List ℚ) (period : Nat) : Option ℚ :=
  if prices.length < period then none
  else some ((lastN period prices).sum / period)

/-- `TechnicalIndicators.calculate_ema` (micro_scalp_bot_v2.py): seeded with
the mean of the first `period` prices, then the standard EMA recurrence over
the rest.  `None` when fewer than `period` prices exist. -/
def calculate_ema (prices : List ℚ) (period : Nat) : Option ℚ :=
  if prices.length < period then none
  else
    let multiplier : ℚ := 2 / (period + 1)
    let ema0 : ℚ := (prices.take period).sum / period
    some ((prices.drop period).foldl (fun ema price => (price - ema) * multiplier + ema) ema0)

/-- `TechnicalIndicators.calculate_rsi` (micro_scalp_bot_v2.py).  Gains are
positive changes, losses the magnitudes of non-positive changes; both averaged
over the last `period` deltas. -/
def calculate_rsi (prices : List ℚ) (period : Nat) : Option ℚ :=
  if prices.length < period + 1 then none
  else
    let gains := (changes prices).map (fun c => if c > 0 then c else 0)
    let losses := (changes prices).map (fun c => if c > 0 then 0 else |c|)
    if gains.length < period then none
    else
      let avg_gain := (lastN period gains).sum / period
      let avg_loss := (lastN period losses).sum / period
      if avg_loss = 0 then some 100
      else
        let rs := avg_gain / avg_loss
        some (100 - 100 / (1 + rs))

end TechnicalIndicators


namespace TechnicalIndicators

/-- Result dict of `calculate_macd`: keys `macd`, `signal`, `histogram`. -/
structure MacdResult where
  macd : Option ℚ
  signal : Option ℚ
  histogram : Option ℚ
deriving DecidableEq

/-- `TechnicalIndicators.calculate_macd` (micro_scalp_bot_v2.py).  The signal
line is the EMA of a reconstructed series of historical MACD values, each
recomputed by running both EMAs over a growing prefix of the prices.  The
Python `histogram = macd_line - signal_line if signal_line else 0` treats both
`None` and `0.0` as falsy, which the `match`/`if` below reproduces. -/
def calculate_macd (prices : List ℚ) (fast slow sig : Nat) : MacdResult :=
  if prices.length < slow + sig then ⟨none, none, none⟩
  else
    match calculate_ema prices fast, calculate_ema prices slow with
    | some ema_fast, some ema_slow =>
      let macd_line := ema_fast - ema_slow
      -- for i in range(slow, len(prices)+1): append ema(prices[:i],fast) - ema(prices[:i],slow)
      let macd_values := (List.range' slow (prices.length + 1 - slow)).filterMap
        (fun i =>
          match calculate_ema (prices.take i) fast, calculate_ema (prices.take i) slow with
          | some ef, some es => some (ef - es)
          | _, _ => none)
      let signal_line : Option ℚ :=
        if sig ≤ macd_values.length then calculate_ema macd_values sig else some macd_line
      let histogram : ℚ :=
        match signal_line with
        | some s => if s = 0 then 0 else macd_line - s
        | none => 0
      ⟨some macd_line, signal_line, some histogram⟩
    | _, _ => ⟨none, none, none⟩

/-- Population variance of `xs`: `numpy.std(xs)` is the (real) square root of
this exact rational value. -/
def npVariance (xs : List ℚ) : ℚ :=
  (xs.map (fun x => (x - mean xs) ^ 2)).sum / xs.length

/-- Result dict of `calculate_bollinger_bands`. -/
structure BollingerBands where
  upper : Option ℝ
  middle : Option ℝ
  lower : Option ℝ
  bandwidth : Option ℝ
  percent_b : Option ℝ

/-- `TechnicalIndicators.calculate_bollinger_bands` (micro_scalp_bot_v2.py).
Real-valued because `numpy.std` takes a square root.  The second `match` arm
is unreachable (`len(prices) ≥ period` forces `calculate_sma` to succeed);
Python uses the value unconditionally.  `bandwidth`'s `if sma else 0` and
`percent_b`'s `if (upper - lower) != 0 else 0.5` reproduce the source's
float truthiness tests. -/
noncomputable def calculate_bollinger_bands (prices : List ℚ) (period : Nat) (std_dev : ℚ) :
    BollingerBands :=
  if prices.length < period then ⟨none, none, none, none, none⟩
  else
    match calculate_sma prices period with
    | some smaQ =>
      let sma : ℝ := (smaQ : ℝ)
      let std : ℝ := Real.sqrt ((npVariance (lastN period prices) : ℚ) : ℝ)
      let upper_band := sma + std * (std_dev : ℝ)
      let lower_band := sma - std * (std_dev : ℝ)
      let bandwidth : ℝ := if sma ≠ 0 then (upper_band - lower_band) / sma else 0
      let current_price : ℝ := ((prices.getLastD 0 : ℚ) : ℝ)
      let percent_b : ℝ :=
        if upper_band - lower_band ≠ 0 then (current_price - lower_band) / (upper_band - lower_band)
        else 1/2
      ⟨some upper_band, some sma, some lower_band, some bandwidth, some percent_b⟩
    | none => ⟨none, none, none, none, none⟩

/-- Computable decision for "`calculate_bollinger_bands prices 20 2` yields
`percent_b` below 0.1" (the buy test in `generate_signal`): with `d` the
distance from the last close to the 20-period SMA and `v` the variance,
`percent_b < 1/10 ↔ d < -1.6·sqrt v ↔ d < 0 ∧ 64·v < 25·d²`.  Proved
equivalent to the real-valued definition in `bb_extreme_low_spec`. -/
def bb_extreme_low (prices : List ℚ) : Bool :=
  let v := npVariance (lastN 20 prices)
  let d := prices.getLastD 0 - (lastN 20 prices).sum / 20
  decide (d < 0 ∧ 64 * v < 25 * d ^ 2)

/-- Computable decision for "`calculate_bollinger_bands prices 20 2` yields
`percent_b` above 0.9" (the sell test in `generate_signal`); see
`bb_extreme_high_spec`. -/
def bb_extreme_high (prices : List ℚ) : Bool :=
  let v := npVariance (lastN 20 prices)
  let d := prices.getLastD 0 - (lastN 20 prices).sum / 20
  decide (0 < d ∧ 64 * v < 25 * d ^ 2)

/-- Result dict of `calculate_stochastic`: keys `k`, `d`. -/
structure StochasticResult where
  k : Option ℚ
  d : Option ℚ
deriving DecidableEq

/-- `TechnicalIndicators.calculate_stochastic` (micro_scalp_bot_v2.py).  `%D`
is set equal to `%K` in the source (an explicit simplification there). -/
def calculate_stochastic (prices highs lows : List ℚ) (k_period d_period : Nat) :
    StochasticResult :=
  if prices.length < k_period ∨ highs.length < k_period ∨ lows.length < k_period then
    ⟨none, none⟩
  else
    let current_close := prices.getLastD 0
    let highest_high := listMax (lastN k_period highs)
    let lowest_low := listMin (lastN k_period lows)
    if highest_high = lowest_low then ⟨none, none⟩
    else
      let k := 100 * ((current_close - lowest_low) / (highest_high - lowest_low))
      ⟨some k, some k⟩

/-- True ranges of consecutive candle pairs: `max(high-low, |high-prev_close|,
|low-prev_close|)` for each candle after the first. -/
def trueRanges : List Candle → List ℚ
  | a :: b :: rest =>
    max (b.high - b.low) (max |b.high - a.close| |b.low - a.close|) :: trueRanges (b :: rest)
  | _ => []

/-- `TechnicalIndicators.calculate_atr` (micro_scalp_bot_v2.py). -/
def calculate_atr (candles : List Candle) (period : Nat) : Option ℚ :=
  if candles.length < period + 1 then none
  else
    let tr_values := trueRanges candles
    if tr_values.length < period then none
    else some ((lastN period tr_values).sum / period)

end TechnicalIndicators

namespace SignalGenerator

open TechnicalIndicators

/-- Result dict of `calculate_trend_strength`.  In the short-input branch the
Python dict has no `sma_*` keys; `none` stands for the absent keys (no caller
reads them in that branch). -/
structure TrendResult where
  strength : ℤ
  direction : String
  sma_10 : Option ℚ
  sma_20 : Option ℚ
  sma_50 : Option ℚ
deriving DecidableEq

/-- `SignalGenerator.calculate_trend_strength` (micro_scalp_bot_v2.py).  The
Python guard `if sma_10 and sma_20 and sma_50` is float truthiness: all three
must be non-`None` and nonzero. -/
def calculate_trend_strength (candles : List Candle) : TrendResult :=
  if candles.length < 50 then ⟨0, "NEUTRAL", none, none, none⟩
  else
    let closes := candles.map Candle.close
    let sma_10 := calculate_sma closes 10
    let sma_20 := calculate_sma closes 20
    let sma_50 := calculate_sma closes 50
    let trend_score : ℤ :=
      match sma_10, sma_20, sma_50 with
      | some a, some b, some c =>
        if a ≠ 0 ∧ b ≠ 0 ∧ c ≠ 0 then
          if a > b ∧ b > c then 1
          else if a < b ∧ b < c then -1
          else 0
        else 0
      | _, _, _ => 0
    ⟨|trend_score|,
     if trend_score > 0 then "UP" else if trend_score < 0 then "DOWN" else "NEUTRAL",
     sma_10, sma_20, sma_50⟩

/-- `SignalGenerator.detect_volume_spike` (micro_scalp_bot_v2.py).
`volumes[-20:-1]` is the 19 volumes preceding the current one. -/
def detect_volume_spike (volumes : List ℚ) (threshold : ℚ) : Bool × ℚ :=
  if volumes.length < 20 then (false, 1)
  else
    let avg_volume := ((lastN 20 volumes).take 19).sum / 19
    let current_volume := volumes.getLastD 0
    let ratio := if avg_volume > 0 then current_volume / avg_volume else 1
    (decide (ratio > threshold), ratio)

/-- Scoring step 1, trend analysis (weight 2): `(buy, sell)` contribution. -/
def trendScore (trend : TrendResult) : ℚ × ℚ :=
  if trend.direction = "UP" then (2, 0)
  else if trend.direction = "DOWN" then (0, 2)
  else (0, 0)

/-- Scoring step 2, RSI analysis (weight 2, `elif` chain as in the source). -/
def rsiScore (rsi : Option ℚ) : ℚ × ℚ :=
  match rsi with
  | some r =>
    if r < 30 then (2, 0)
    else if r > 70 then (0, 2)
    else if 40 < r ∧ r < 60 then (1/2, 1/2)
    else (0, 0)
  | none => (0, 0)

/-- Scoring step 3, MACD analysis (weight 2).  The source guards on `macd` and
`signal` being non-`None`; `histogram` is then always a number too (it is
`None` only in the all-`None` early returns of `calculate_macd`). -/
def macdScore (m : MacdResult) : ℚ × ℚ :=
  match m.macd, m.signal, m.histogram with
  | some ml, some sl, some h =>
    if ml > sl ∧ h > 0 then (2, 0)
    else if ml < sl ∧ h < 0 then (0, 2)
    else (0, 0)
  | _, _, _ => (0, 0)

/-- Scoring step 4, Bollinger-band analysis (weight 1.5), via the exact
threshold decisions `bb_extreme_low`/`bb_extreme_high` (which are `false`
whenever `percent_b` would be `None`, i.e. below 20 closes). -/
def bbScore (lo hi : Bool) : ℚ × ℚ :=
  if lo then (3/2, 0)
  else if hi then (0, 3/2)
  else (0, 0)

/-- Scoring step 5, volume analysis (weight 1.5). -/
def volumeScore (spike : Bool) (trend : TrendResult) : ℚ × ℚ :=
  if spike then
    if trend.direction = "UP" then (3/2, 0)
    else if trend.direction = "DOWN" then (0, 3/2)
    else (0, 0)
  else (0, 0)

/-- Scoring step 6, stochastic analysis (weight 1). -/
def stochScore (k : Option ℚ) : ℚ × ℚ :=
  match k with
  | some kv =>
    if kv < 20 then (1, 0)
    else if kv > 80 then (0, 1)
    else (0, 0)
  | none => (0, 0)

/-- Scoring step 7, EMA crossover (weight 1): note the bare `else` in the
source sends equality to the sell side. -/
def emaScore (ema_12 ema_26 : Option ℚ) : ℚ × ℚ :=
  match ema_12, ema_26 with
  | some a, some b => if a > b then (1, 0) else (0, 1)
  | _, _ => (0, 0)

/-- The `(buy_score, sell_score)` pair accumulated by
`SignalGenerator.generate_signal` over its seven scoring steps (the source
adds the same contributions to two running floats). -/
def scores (candles : List Candle) : ℚ × ℚ :=
  let closes := candles.map Candle.close
  let highs := candles.map Candle.high
  let lows := candles.map Candle.low
  let volumes := candles.map Candle.volume
  let s1 := trendScore (calculate_trend_strength candles)
  let s2 := rsiScore (calculate_rsi closes 14)
  let s3 := macdScore (calculate_macd closes 12 26 9)
  let s4 := bbScore (bb_extreme_low closes) (bb_extreme_high closes)
  let s5 := volumeScore (detect_volume_spike volumes 2).1 (calculate_trend_strength candles)
  let s6 := stochScore (calculate_stochastic closes highs lows 14 3).k
  let s7 := emaScore (calculate_ema closes 12) (calculate_ema closes 26)
  (s1.1 + s2.1 + s3.1 + s4.1 + s5.1 + s6.1 + s7.1,
   s1.2 + s2.2 + s3.2 + s4.2 + s5.2 + s6.2 + s7.2)

/-- Indicator snapshot stored on each generated signal (the Python dict
`signal.indicators`).  The Bollinger-band entry is real-valued in the model
(see `calculate_bollinger_bands`) and no downstream computation reads it, so
it is not carried here; all entries read by other components are. -/
structure Indicators where
  price : ℚ
  sma_10 : Option ℚ
  sma_20 : Option ℚ
  sma_50 : Option ℚ
  ema_12 : Option ℚ
  ema_26 : Option ℚ
  rsi : Option ℚ
  macd : MacdResult
  stochastic : StochasticResult
  atr : Option ℚ
  volume_spike : Bool
  trend : TrendResult
deriving DecidableEq

/-- The `Signal` dataclass: the timestamp and the dynamic part of the
free-text `reason` (formatted indicator values) carry no information used by
any computation and are not modelled; fixed literal reasons are kept. -/
structure Signal where
  symbol : String
  signal : String
  confidence : ℚ
  reason : String
  indicators : Option Indicators
deriving DecidableEq

/-- `SignalGenerator.generate_signal` (micro_scalp_bot_v2.py): insufficient
data short-circuits to a HOLD with confidence 0; otherwise the weighted
scores (total weight 11) are turned into BUY/SELL/HOLD exactly as in the
source's final `if`/`elif`/`else`. -/
def generate_signal (candles : List Candle) (symbol : String) : Signal :=
  if candles.length < 50 then
    { symbol := symbol, signal := "HOLD", confidence := 0,
      reason := "Insufficient data (need 50+ candles)", indicators := none }
  else
    let closes := candles.map Candle.close
    let highs := candles.map Candle.high
    let lows := candles.map Candle.low
    let volumes := candles.map Candle.volume
    let ind : Indicators :=
      { price := closes.getLastD 0
        sma_10 := calculate_sma closes 10
        sma_20 := calculate_sma closes 20
        sma_50 := calculate_sma closes 50
        ema_12 := calculate_ema closes 12
        ema_26 := calculate_ema closes 26
        rsi := calculate_rsi closes 14
        macd := calculate_macd closes 12 26 9
        stochastic := calculate_stochastic closes highs lows 14 3
        atr := calculate_atr candles 14
        volume_spike := (detect_volume_spike volumes 2).1
        trend := calculate_trend_strength candles }
    let sc := scores candles
    let buy_confidence := sc.1 / 11
    let sell_confidence := sc.2 / 11
    if buy_confidence ≥ 6/10 ∧ buy_confidence > sell_confidence then
      { symbol := symbol, signal := "BUY", confidence := min buy_confidence 1,
        reason := "Multiple bullish indicators", indicators := some ind }
    else if sell_confidence ≥ 6/10 ∧ sell_confidence > buy_confidence then
      { symbol := symbol, signal := "SELL", confidence := min sell_confidence 1,
        reason := "Multiple bearish indicators", indicators := some ind }
    else
      { symbol := symbol, signal := "HOLD",
        confidence := max buy_confidence sell_confidence,
        reason := "No clear signal - mixed indicators", indicators := some ind }

end SignalGenerator

/-- The 60-candle scenario from the spec's test list: closes 50000, 50010,
50020, ... (step +10), volume constant at 500; highs and lows taken equal to
the closes (the scenario constrains only closes and volumes). -/
def risingCandles : List Candle :=
  (List.range 60).map (fun i =>
    { high := 50000 + 10 * i, low := 50000 + 10 * i,
      close := 50000 + 10 * i, volume := 500 })


/-- The flat trading fee used by `PaperTrader` (0.1%). -/
def fee_rate : ℚ := 1/1000

/-- The `Trade` dataclass.  Timestamps (`entry_time`/`exit_time`) are wall
clock strings with no effect on any computation and are not modelled. -/
structure Trade where
  id : Nat
  symbol : String
  side : String
  entry_price : ℚ
  exit_price : ℚ
  quantity : ℚ
  profit_loss : ℚ
  profit_loss_pct : ℚ
  status : String
  strategy : String
  stop_loss : ℚ
  take_profit : ℚ
deriving DecidableEq

/-- The mutable state of a `PaperTrader` (micro_scalp_bot_v2.py).  The SQLite
mirror of the ledger duplicates `open_trades`/`trade_history` and is not
modelled separately. -/
structure PaperTrader where
  initial_balance : ℚ
  balance : ℚ
  peak_balance : ℚ
  open_trades : List Trade
  trade_history : List Trade
  trade_id_counter : Nat
  total_fees : ℚ
deriving DecidableEq

namespace PaperTrader

/-- A fresh `PaperTrader(initial_balance)`. -/
def init (initial_balance : ℚ) : PaperTrader :=
  { initial_balance := initial_balance, balance := initial_balance,
    peak_balance := initial_balance, open_trades := [], trade_history := [],
    trade_id_counter := 0, total_fees := 0 }

/-- `PaperTrader.get_equity`: balance plus entry value of open positions. -/
def get_equity (s : PaperTrader) : ℚ :=
  s.balance + (s.open_trades.map (fun t => t.entry_price * t.quantity)).sum

/-- `PaperTrader.open_trade` (micro_scalp_bot_v2.py): refuse (returning
`none` and the unchanged state) when entry cost plus fee exceeds 95% of the
balance; otherwise create the trade, append it to the open list, deduct the
cost and record the fee. -/
def open_trade (s : PaperTrader) (symbol side : String)
    (price quantity stop_loss take_profit : ℚ) (strategy : String) :
    Option Trade × PaperTrader :=
  let trade_cost := price * quantity
  let fee := trade_cost * fee_rate
  let total_cost := trade_cost + fee
  if total_cost > s.balance * (95/100) then (none, s)
  else
    let trade : Trade :=
      { id := s.trade_id_counter + 1, symbol := symbol, side := side,
        entry_price := price, exit_price := 0, quantity := quantity,
        profit_loss := 0, profit_loss_pct := 0, status := "OPEN",
        strategy := strategy, stop_loss := stop_loss, take_profit := take_profit }
    (some trade,
     { s with trade_id_counter := s.trade_id_counter + 1,
              open_trades := s.open_trades ++ [trade],
              balance := s.balance - total_cost,
              total_fees := s.total_fees + fee })

/-- `PaperTrader.close_trade` (micro_scalp_bot_v2.py): find the first open
trade with the given id (`none` and unchanged state when absent), compute the
P&L net of the exit fee, credit the exit value to the balance, move the trade
to the history and update the peak balance.  `profit_loss_pct` divides by
`entry_price * quantity` (Python would raise when that is zero; rational
division by zero is 0 here). -/
def close_trade (s : PaperTrader) (trade_id : Nat) (exit_price : ℚ) :
    Option Trade × PaperTrader :=
  match s.open_trades.find? (fun t => t.id == trade_id) with
  | none => (none, s)
  | some trade =>
    let pl0 := if trade.side = "BUY" then (exit_price - trade.entry_price) * trade.quantity
               else (trade.entry_price - exit_price) * trade.quantity
    let exit_fee := exit_price * trade.quantity * fee_rate
    let pl := pl0 - exit_fee
    let closed : Trade :=
      { trade with exit_price := exit_price, status := "CLOSED", profit_loss := pl,
                   profit_loss_pct := pl / (trade.entry_price * trade.quantity) * 100 }
    let s' : PaperTrader :=
      { s with balance := s.balance + exit_price * trade.quantity,
               open_trades := s.open_trades.eraseP (fun t => t.id == trade_id),
               trade_history := s.trade_history ++ [closed],
               total_fees := s.total_fees + exit_fee }
    let current_equity := get_equity s'
    (some closed,
     { s' with peak_balance :=
         if current_equity > s.peak_balance then current_equity else s.peak_balance })

end PaperTrader

/-- Daily statistics of `RiskManager` (micro_scalp_bot_v2.py); the
`MicroScalpBot` instantiates it with the default limits
(max_daily_loss_pct = 3, max_position_pct = 5, max_trades_per_day = 10,
atr_multiplier_sl = 2, risk_reward_ratio = 2), which appear below as
literals. -/
structure RiskManager where
  loss : ℚ
  loss_pct : ℚ
  trades : Nat
  wins : Nat
  losses : Nat
deriving DecidableEq

namespace RiskManager

/-- The zeroed daily statistics (`check_daily_reset` on a new day, and the
initial state). -/
def reset : RiskManager := ⟨0, 0, 0, 0, 0⟩

/-- `RiskManager.can_trade` after the daily reset has been applied: blocked
when the daily loss reached 3% or 10 trades were already made. -/
def can_trade (r : RiskManager) : Bool :=
  if r.loss_pct ≥ 3 then false
  else if r.trades ≥ 10 then false
  else true

/-- `RiskManager.update_after_trade`: accumulate losses/wins and recompute
the loss percentage against the portfolio value. -/
def update_after_trade (r : RiskManager) (trade_pnl portfolio_value : ℚ) : RiskManager :=
  let r1 := if trade_pnl < 0 then { r with loss := r.loss + |trade_pnl|, losses := r.losses + 1 }
            else { r with wins := r.wins + 1 }
  { r1 with
      loss_pct := if portfolio_value > 0 then r1.loss / portfolio_value * 100 else 0,
      trades := r1.trades + 1 }

/-- Python `round(x, 6)` (nearest multiple of 10⁻⁶, ties to even), modelled
at exact rational precision. -/
def pyRound6 (x : ℚ) : ℚ :=
  let y := x * 1000000
  let n : ℤ := ⌊y⌋
  let r := y - n
  let m : ℤ := if r < 1/2 then n else if r > 1/2 then n + 1
               else if n % 2 = 0 then n else n + 1
  (m : ℚ) / 1000000

/-- `RiskManager.calculate_dynamic_position_size` with the default limits:
base percentage 5 × confidence, scaled down when the ATR-derived volatility
is high.  `if atr and entry_price > 0` is float truthiness on `atr`. -/
def calculate_dynamic_position_size (portfolio_value entry_price : ℚ)
    (atr : Option ℚ) (confidence : ℚ) : ℚ × ℚ :=
  let base_position_pct := 5 * confidence
  let volatility_factor : ℚ :=
    match atr with
    | some a =>
      if a ≠ 0 ∧ entry_price > 0 then
        let volatility_pct := a / entry_price * 100
        if volatility_pct > 5 then 1/2
        else if volatility_pct > 3 then 3/4
        else 1
      else 1
    | none => 1
  let adjusted_position_pct := base_position_pct * volatility_factor
  let position_value := portfolio_value * (adjusted_position_pct / 100)
  let quantity := if entry_price > 0 then position_value / entry_price else 0
  (pyRound6 quantity, adjusted_position_pct)

/-- `RiskManager.calculate_stop_loss` with atr_multiplier_sl = 2; `if atr`
is float truthiness. -/
def calculate_stop_loss (entry_price : ℚ) (side : String) (atr : Option ℚ) : ℚ :=
  let stop_distance :=
    match atr with
    | some a => if a ≠ 0 then a * 2 else entry_price * (1/100)
    | none => entry_price * (1/100)
  if side = "BUY" then entry_price - stop_distance else entry_price + stop_distance

/-- `RiskManager.calculate_take_profit` with risk_reward_ratio = 2. -/
def calculate_take_profit (entry_price : ℚ) (side : String) (stop_loss : ℚ) : ℚ :=
  let reward_distance := |entry_price - stop_loss| * 2
  if side = "BUY" then entry_price + reward_distance else entry_price - reward_distance

end RiskManager

namespace MicroScalpBot

open PaperTrader RiskManager SignalGenerator

/-- The bot state acted on by one polling cycle (trader ledger plus daily
risk statistics; the other attributes of `MicroScalpBot` are configuration
or monitoring-only). -/
structure BotState where
  trader : PaperTrader
  risk : RiskManager
deriving DecidableEq

/-- The external inputs consumed during one cycle: the price returned by
`get_price` for each symbol (`none` for a failed fetch), the candles returned
by `get_klines`, and whether the wall-clock date changed since the last
cycle (`check_daily_reset`). -/
structure Market where
  price : String → Option ℚ
  klines : String → List Candle
  newDay : Bool

/-- Close a trade by id at the given price and feed the realised P&L back to
the risk manager (`close_trade` + `update_after_trade`, as done in
`check_open_trades`). -/
def closeAndUpdate (s : BotState) (trade_id : Nat) (price : ℚ) : BotState :=
  match PaperTrader.close_trade s.trader trade_id price with
  | (some closed, trader') =>
    { trader := trader',
      risk := update_after_trade s.risk closed.profit_loss (get_equity trader') }
  | (none, trader') => { s with trader := trader' }

/-- The body of the `check_open_trades` loop for one trade of the snapshot:
skip when no (nonzero — float truthiness) price is available, close at the
current price when a BUY trade crossed its stop-loss or take-profit.  (The
source only handles BUY trades; it never opens any other side.) -/
def checkTradeStep (m : Market) (s : BotState) (t : Trade) : BotState :=
  match m.price t.symbol with
  | none => s
  | some p =>
    if p = 0 then s
    else if t.side = "BUY" then
      if p ≤ t.stop_loss then closeAndUpdate s t.id p
      else if p ≥ t.take_profit then closeAndUpdate s t.id p
      else s
    else s

/-- `MicroScalpBot.check_open_trades`: iterate over a snapshot
(`open_trades[:]`) of the open trades. -/
def check_open_trades (m : Market) (s : BotState) : BotState :=
  s.trader.open_trades.foldl (checkTradeStep m) s

/-- The body of the `check_new_signals` loop for one symbol: skip when an
open trade for the symbol exists, when fewer than 50 candles are available,
or when the signal is not a confident BUY; otherwise size the position, set
stop-loss/take-profit and try to open the trade (counting it on success).
The `none` indicator arm is unreachable: a BUY signal always carries its
indicator snapshot. -/
def trySymbol (m : Market) (s : BotState) (symbol : String) : BotState :=
  if s.trader.open_trades.any (fun t => t.symbol == symbol) then s
  else
    let candles := m.klines symbol
    if candles.length = 0 ∨ candles.length < 50 then s
    else
      let signal := generate_signal candles symbol
      if signal.signal = "BUY" ∧ signal.confidence ≥ 6/10 then
        match signal.indicators with
        | none => s
        | some ind =>
          let current_price := ind.price
          let atr := ind.atr
          let qp := calculate_dynamic_position_size (get_equity s.trader) current_price atr
            signal.confidence
          let stop_loss := calculate_stop_loss current_price "BUY" atr
          let take_profit := calculate_take_profit current_price "BUY" stop_loss
          match PaperTrader.open_trade s.trader symbol "BUY" current_price qp.1 stop_loss
            take_profit "micro_scalp" with
          | (some _, trader') =>
            { trader := trader', risk := { s.risk with trades := s.risk.trades + 1 } }
          | (none, trader') => { s with trader := trader' }
      else s

/-- `MicroScalpBot.check_new_signals`: reset the daily counters on a new day
(`can_trade` → `check_daily_reset`), stop when the risk limits forbid
trading, otherwise scan the symbols in order. -/
def check_new_signals (m : Market) (symbols : List String) (s : BotState) : BotState :=
  let s0 : BotState := if m.newDay then { s with risk := RiskManager.reset } else s
  if can_trade s0.risk then symbols.foldl (trySymbol m) s0 else s0

/-- One iteration of the main loop of `MicroScalpBot.run`:
`check_open_trades` then `check_new_signals`. -/
def botCycle (symbols : List String) (s : BotState) (m : Market) : BotState :=
  check_new_signals m symbols (check_open_trades m s)

/-- The ledger invariant: at most one OPEN trade per symbol. -/
def onePerSymbol (s : BotState) : Prop :=
  ∀ sym : String, (s.trader.open_trades.filter (fun t => t.symbol == sym)).length ≤ 1

end MicroScalpBot

namespace MicroScalpV1

/-- `SignalGenerator.calculate_sma` of the earlier variant
(micro_scalp_bot.py): below `period` it falls back to the mean of the whole
sequence instead of returning a sentinel.  (Python raises on an empty list;
rational division by zero makes the empty case 0 here, and every statement
about it assumes non-emptiness.) -/
def calculate_sma (prices : List ℚ) (period : Nat) : ℚ :=
  if prices.length < period then prices.sum / prices.length
  else (lastN period prices).sum / period

/-- `SignalGenerator.calculate_ema` of the earlier variant
(micro_scalp_bot.py): same whole-sequence-mean fallback below `period`. -/
def calculate_ema (prices : List ℚ) (period : Nat) : ℚ :=
  if prices.length < period then prices.sum / prices.length
  else
    let multiplier : ℚ := 2 / (period + 1)
    let ema0 : ℚ := (prices.take period).sum / period
    (prices.drop period).foldl (fun ema price => (price - ema) * multiplier + ema) ema0

end MicroScalpV1

/-- A 60-candle flat-close series (highs/lows/volumes arbitrary but fixed),
used as a concrete instance for the universally quantified theorems. -/
def flatCandles : List Candle :=
  List.replicate 60 { high := 101, low := 99, close := 100, volume := 500 }

/-- A fresh bot state as built by `MicroScalpBot.__init__`. -/
def initialBot : MicroScalpBot.BotState :=
  { trader := PaperTrader.init 10000, risk := RiskManager.reset }

/-- A cycle input where every fetch fails and the date did not change. -/
def trivialMarket : MicroScalpBot.Market :=
  { price := fun _ => none, klines := fun _ => [], newDay := false }

/-- A placeholder trade (all fields zero/empty). -/
def dummyTrade : Trade := ⟨0, "", "", 0, 0, 0, 0, 0, "", "", 0, 0⟩

/-- The trade created by a sample `open_trade` on a fresh trader. -/
def wTr : Trade :=
  (PaperTrader.open_trade (PaperTrader.init 10000) "BTCUSDT" "BUY" 10 2 9 12 "micro_scalp").1.getD
    dummyTrade

/-- The trader state after that sample `open_trade`. -/
def wS' : PaperTrader :=
  (PaperTrader.open_trade (PaperTrader.init 10000) "BTCUSDT" "BUY" 10 2 9 12 "micro_scalp").2

/-- The closed trade returned by the matching sample `close_trade`. -/
def wTr2 : Trade := (PaperTrader.close_trade wS' wTr.id 11).1.getD dummyTrade

/-- The trader state after the sample `close_trade`. -/
def wS'' : PaperTrader := (PaperTrader.close_trade wS' wTr.id 11).2

/-! ## Supporting lemmas -/

theorem lastN_length_of_le {α : Type} {n : Nat} {xs : List α} (h : n ≤ xs.length) :
    (lastN n xs).length = n := by
  simp [lastN]
  omega

theorem mem_lastN {α : Type} {n : Nat} {xs : List α} {x : α} (h : x ∈ lastN n xs) :
    x ∈ xs :=
  List.drop_subset _ _ h

theorem lastN_map {α β : Type} (f : α → β) (n : Nat) (xs : List α) :
    lastN n (xs.map f) = (lastN n xs).map f := by
  simp [lastN, List.map_drop]

theorem sum_of_all_eq {xs : List ℚ} {p : ℚ} (h : ∀ x ∈ xs, x = p) :
    xs.sum = xs.length * p := by
  induction xs with
  | nil => simp
  | cons a t ih =>
    have ha := h a (List.mem_cons_self a t)
    have ht := ih (fun x hx => h x (List.mem_cons_of_mem a hx))
    simp [ha, ht]
    ring

theorem sum_eq_zero_iff_of_nonneg {xs : List ℚ} (h0 : ∀ x ∈ xs, 0 ≤ x) :
    xs.sum = 0 ↔ ∀ x ∈ xs, x = 0 := by
  induction xs with
  | nil => simp
  | cons a t ih =>
    have ha := h0 a (List.mem_cons_self a t)
    have ht : ∀ x ∈ t, 0 ≤ x := fun x hx => h0 x (List.mem_cons_of_mem a hx)
    have hts : 0 ≤ t.sum := List.sum_nonneg ht
    constructor
    · intro hsum
      have ha0 : a = 0 := by simp at hsum; linarith
      have ht0 : t.sum = 0 := by simp at hsum; linarith
      intro x hx
      rcases List.mem_cons.1 hx with rfl | hx'
      · exact ha0
      · exact ((ih ht).1 ht0) x hx'
    · intro hall
      have := (ih ht).2 (fun x hx => hall x (List.mem_cons_of_mem a hx))
      simp [hall a (List.mem_cons_self a t), this]

theorem changes_length (xs : List ℚ) : (changes xs).length = xs.length - 1 := by
  induction xs with
  | nil => simp [changes]
  | cons a t ih =>
    cases t with
    | nil => simp [changes]
    | cons b r =>
      simp only [changes, List.length_cons] at ih ⊢
      omega

theorem changes_all_zero {xs : List ℚ} {p : ℚ} (h : ∀ x ∈ xs, x = p) :
    ∀ c ∈ changes xs, c = 0 := by
  induction xs with
  | nil => simp [changes]
  | cons a t ih =>
    cases t with
    | nil => simp [changes]
    | cons b r =>
      intro c hc
      have ha := h a (by simp)
      have hb := h b (by simp)
      have ht : ∀ x ∈ b :: r, x = p := fun x hx => h x (List.mem_cons_of_mem a hx)
      simp only [changes, List.mem_cons] at hc
      rcases hc with rfl | hc'
      · rw [ha, hb]; ring
      · exact ih ht c hc'

theorem getLastD_all_eq {xs : List ℚ} {p : ℚ} (h : ∀ x ∈ xs, x = p) (hne : xs ≠ []) :
    xs.getLastD 0 = p := by
  cases xs with
  | nil => exact absurd rfl hne
  | cons a t =>
    rw [List.getLastD_cons]
    exact h _ (List.getLastD_mem_cons t a)

theorem foldl_ema_const {l : List ℚ} {p m : ℚ} (h : ∀ x ∈ l, x = p) :
    l.foldl (fun ema price => (price - ema) * m + ema) p = p := by
  induction l with
  | nil => simp
  | cons a t ih =>
    have ha := h a (List.mem_cons_self a t)
    have ht := ih (fun x hx => h x (List.mem_cons_of_mem a hx))
    simp only [List.foldl_cons, ha]
    have : (p - p) * m + p = p := by ring
    rw [this, ht]

theorem filterMap_eq_map_of_some {α β : Type} {f : α → Option β} {b : β} {l : List α}
    (h : ∀ a ∈ l, f a = some b) : l.filterMap f = l.map (fun _ => b) := by
  induction l with
  | nil => simp
  | cons a t ih =>
    rw [List.filterMap_cons, h a (List.mem_cons_self a t)]
    simp [ih fun x hx => h x (List.mem_cons_of_mem a hx)]

namespace TechnicalIndicators

theorem calculate_sma_all_eq {xs : List ℚ} {p : ℚ} {n : Nat} (h : ∀ x ∈ xs, x = p)
    (hn : 0 < n) (hlen : n ≤ xs.length) : calculate_sma xs n = some p := by
  rw [calculate_sma, if_neg (by omega)]
  have hall : ∀ x ∈ lastN n xs, x = p := fun x hx => h x (mem_lastN hx)
  have hnz : (n : ℚ) ≠ 0 := Nat.cast_ne_zero.2 (by omega)
  rw [sum_of_all_eq hall, lastN_length_of_le hlen]
  field_simp

theorem calculate_ema_all_eq {xs : List ℚ} {p : ℚ} {n : Nat} (h : ∀ x ∈ xs, x = p)
    (hn : 0 < n) (hlen : n ≤ xs.length) : calculate_ema xs n = some p := by
  rw [calculate_ema, if_neg (by omega)]
  have htake : ∀ x ∈ xs.take n, x = p := fun x hx => h x (List.take_subset _ _ hx)
  have hdrop : ∀ x ∈ xs.drop n, x = p := fun x hx => h x (List.drop_subset _ _ hx)
  have hnz : (n : ℚ) ≠ 0 := Nat.cast_ne_zero.2 (by omega)
  have h0 : (xs.take n).sum / (n : ℚ) = p := by
    rw [sum_of_all_eq htake, List.length_take, min_eq_left hlen]
    field_simp
  simp only [h0, foldl_ema_const hdrop]

theorem calculate_rsi_all_eq {xs : List ℚ} {p : ℚ} {n : Nat} (h : ∀ x ∈ xs, x = p)
    (hn : 0 < n) (hlen : n + 1 ≤ xs.length) : calculate_rsi xs n = some 100 := by
  rw [calculate_rsi, if_neg (by omega)]
  have hch := changes_all_zero h
  have hlg : ((changes xs).map (fun c => if c > 0 then c else 0)).length = xs.length - 1 := by
    rw [List.length_map, changes_length]
  have hloss : ∀ x ∈ (changes xs).map (fun c => if c > 0 then (0:ℚ) else |c|), x = 0 := by
    intro x hx
    rcases List.mem_map.1 hx with ⟨c, hc, rfl⟩
    rw [hch c hc]
    norm_num
  have hsum : (lastN n ((changes xs).map (fun c => if c > 0 then (0:ℚ) else |c|))).sum = 0 := by
    rw [sum_of_all_eq (fun x hx => hloss x (mem_lastN hx))]
    ring
  rw [if_neg (by omega), if_pos (by rw [hsum]; norm_num)]

theorem calculate_macd_all_eq {xs : List ℚ} {p : ℚ} (h : ∀ x ∈ xs, x = p)
    (hlen : 35 ≤ xs.length) : calculate_macd xs 12 26 9 = ⟨some 0, some 0, some 0⟩ := by
  have he12 : calculate_ema xs 12 = some p := calculate_ema_all_eq h (by norm_num) (by omega)
  have he26 : calculate_ema xs 26 = some p := calculate_ema_all_eq h (by norm_num) (by omega)
  have hvals : ∀ i ∈ List.range' 26 (xs.length + 1 - 26),
      (match calculate_ema (xs.take i) 12, calculate_ema (xs.take i) 26 with
        | some ef, some es => some (ef - es)
        | _, _ => none) = some (0 : ℚ) := by
    intro i hi
    have hi' := List.mem_range'_1.1 hi
    have htk : ∀ x ∈ xs.take i, x = p := fun x hx => h x (List.take_subset _ _ hx)
    have hlt : (xs.take i).length = i := by
      rw [List.length_take]
      omega
    rw [calculate_ema_all_eq htk (by omega) (by omega),
        calculate_ema_all_eq htk (by omega) (by omega)]
    simp
  have hz : ∀ x ∈ (List.range' 26 (xs.length + 1 - 26)).map (fun _ => (0:ℚ)), x = 0 := by
    intro x hx
    rcases List.mem_map.1 hx with ⟨c, _, rfl⟩
    rfl
  have hzlen : ((List.range' 26 (xs.length + 1 - 26)).map (fun _ => (0:ℚ))).length =
      xs.length + 1 - 26 := by
    rw [List.length_map, List.length_range']
  have hsig : calculate_ema ((List.range' 26 (xs.length + 1 - 26)).map (fun _ => (0:ℚ))) 9 =
      some 0 := calculate_ema_all_eq hz (by norm_num) (by rw [hzlen]; omega)
  rw [calculate_macd, if_neg (by omega), he12, he26]
  simp only [filterMap_eq_map_of_some hvals, hzlen, hsig, sub_self]
  rw [if_pos (by omega : 9 ≤ xs.length + 1 - 26)]
  simp

end TechnicalIndicators

theorem getLastD_of_ne_nil {α : Type} (a d : α) {t : List α} (h : t ≠ []) :
    t.getLastD a = t.getLastD d := by
  cases t with
  | nil => exact absurd rfl h
  | cons b r => rw [List.getLastD_cons, List.getLastD_cons]

theorem getLastD_mem {α : Type} {xs : List α} (d : α) (hne : xs ≠ []) :
    xs.getLastD d ∈ xs := by
  cases xs with
  | nil => exact absurd rfl hne
  | cons a t =>
    rw [List.getLastD_cons]
    exact List.getLastD_mem_cons t a

theorem getLastD_drop {α : Type} (d : α) :
    ∀ (k : Nat) (xs : List α), k < xs.length → (xs.drop k).getLastD d = xs.getLastD d := by
  intro k
  induction k with
  | zero => simp
  | succ n ih =>
    intro xs h
    cases xs with
    | nil => simp at h
    | cons a t =>
      have ht : n < t.length := by simpa using h
      have htne : t ≠ [] := by
        intro he
        rw [he] at ht
        simp at ht
      rw [List.drop_succ_cons, ih t ht, List.getLastD_cons, getLastD_of_ne_nil a d htne]

theorem getLastD_lastN {α : Type} (d : α) {n : Nat} {xs : List α}
    (hn : 0 < n) (hlen : n ≤ xs.length) : (lastN n xs).getLastD d = xs.getLastD d :=
  getLastD_drop d _ xs (by omega)

namespace TechnicalIndicators

theorem npVariance_nonneg (xs : List ℚ) : 0 ≤ npVariance xs := by
  unfold npVariance
  apply div_nonneg
  · apply List.sum_nonneg
    intro x hx
    rcases List.mem_map.1 hx with ⟨y, _, rfl⟩
    positivity
  · positivity

theorem mean_all_eq {xs : List ℚ} {p : ℚ} (h : ∀ x ∈ xs, x = p) (hne : xs ≠ []) :
    mean xs = p := by
  unfold mean
  have hlp : (0:ℚ) < xs.length := by
    have := List.length_pos.2 hne
    exact_mod_cast this
  rw [sum_of_all_eq h]
  field_simp

theorem npVariance_eq_zero_imp {xs : List ℚ} (hv : npVariance xs = 0) :
    ∀ x ∈ xs, x = mean xs := by
  intro x hx
  have hne : xs ≠ [] := by
    intro he
    rw [he] at hx
    simp at hx
  have hlp : (0:ℚ) < xs.length := by
    have := List.length_pos.2 hne
    exact_mod_cast this
  unfold npVariance at hv
  have hsum0 : (xs.map (fun y => (y - mean xs) ^ 2)).sum = 0 := by
    rcases div_eq_zero_iff.1 hv with h0 | h0
    · exact h0
    · exact absurd h0 (by positivity)
  have hnn : ∀ y ∈ xs.map (fun y => (y - mean xs) ^ 2), 0 ≤ y := by
    intro y hy
    rcases List.mem_map.1 hy with ⟨z, _, rfl⟩
    positivity
  have hz := (sum_eq_zero_iff_of_nonneg hnn).1 hsum0
  have h2 : (x - mean xs) ^ 2 = 0 := hz _ (List.mem_map_of_mem (fun y => (y - mean xs) ^ 2) hx)
  have hx0 : x - mean xs = 0 := sq_eq_zero_iff.1 h2
  linarith

theorem bb_extreme_low_all_eq {xs : List ℚ} {p : ℚ} (h : ∀ x ∈ xs, x = p)
    (hlen : 20 ≤ xs.length) : bb_extreme_low xs = false := by
  unfold bb_extreme_low
  have hne : xs ≠ [] := by
    intro he
    rw [he] at hlen
    simp at hlen
  have hlast : xs.getLastD 0 = p := getLastD_all_eq h hne
  have hsum : (lastN 20 xs).sum = 20 * p := by
    rw [sum_of_all_eq (fun x hx => h x (mem_lastN hx)), lastN_length_of_le hlen]
    norm_num
  rw [hlast, hsum]
  norm_num

theorem bb_extreme_high_all_eq {xs : List ℚ} {p : ℚ} (h : ∀ x ∈ xs, x = p)
    (hlen : 20 ≤ xs.length) : bb_extreme_high xs = false := by
  unfold bb_extreme_high
  have hne : xs ≠ [] := by
    intro he
    rw [he] at hlen
    simp at hlen
  have hlast : xs.getLastD 0 = p := getLastD_all_eq h hne
  have hsum : (lastN 20 xs).sum = 20 * p := by
    rw [sum_of_all_eq (fun x hx => h x (mem_lastN hx)), lastN_length_of_le hlen]
    norm_num
  rw [hlast, hsum]
  norm_num

/-- The `percent_b` entry of the Bollinger result, rewritten with
`upper - lower = 4·std`. -/
theorem percent_b_eq (prices : List ℚ) (hlen : 20 ≤ prices.length) :
    (calculate_bollinger_bands prices 20 2).percent_b =
      some (if Real.sqrt ((npVariance (lastN 20 prices) : ℚ) : ℝ) = 0 then 1/2
            else (((prices.getLastD 0 : ℚ) : ℝ) - (((lastN 20 prices).sum / 20 : ℚ) : ℝ)
                  + 2 * Real.sqrt ((npVariance (lastN 20 prices) : ℚ) : ℝ))
                 / (4 * Real.sqrt ((npVariance (lastN 20 prices) : ℚ) : ℝ))) := by
  have hsma : calculate_sma prices 20 = some ((lastN 20 prices).sum / (20:ℚ)) := by
    rw [calculate_sma, if_neg (by omega)]
    norm_num
  rw [calculate_bollinger_bands, if_neg (by omega), hsma]
  dsimp only
  set σ : ℝ := Real.sqrt ((npVariance (lastN 20 prices) : ℚ) : ℝ) with hσ
  have hσ0 : 0 ≤ σ := Real.sqrt_nonneg _
  set M : ℝ := (((lastN 20 prices).sum / 20 : ℚ) : ℝ) with hM
  set C : ℝ := ((prices.getLastD 0 : ℚ) : ℝ) with hC
  have hdiff : (M + σ * ((2:ℚ):ℝ)) - (M - σ * ((2:ℚ):ℝ)) = 4 * σ := by
    push_cast
    ring
  rw [hdiff]
  by_cases hz : σ = 0
  · rw [if_neg (by rw [hz]; norm_num), if_pos hz]
  · rw [if_pos (by positivity), if_neg hz]
    congr 1
    push_cast
    ring

/-- Faithfulness bridge: the computable sell-side Bollinger test agrees with
"`percent_b` is available and exceeds 0.9" on the real-valued definition. -/
theorem bb_extreme_high_spec (prices : List ℚ) (hlen : 20 ≤ prices.length) :
    (bb_extreme_high prices = true ↔
      ∃ pb : ℝ, (calculate_bollinger_bands prices 20 2).percent_b = some pb ∧ (9/10 : ℝ) < pb) := by
  rw [percent_b_eq prices hlen]
  simp only [Option.some.injEq, exists_eq_left']
  unfold bb_extreme_high
  set v : ℚ := npVariance (lastN 20 prices) with hv
  set d : ℚ := prices.getLastD 0 - (lastN 20 prices).sum / 20 with hd
  have hv0 : 0 ≤ v := npVariance_nonneg _
  set σ : ℝ := Real.sqrt ((v : ℚ) : ℝ) with hσ
  have hσ0 : 0 ≤ σ := Real.sqrt_nonneg _
  have hσsq : σ ^ 2 = (v : ℝ) := Real.sq_sqrt (by exact_mod_cast hv0)
  have hD : ((prices.getLastD 0 : ℚ) : ℝ) - (((lastN 20 prices).sum / 20 : ℚ) : ℝ) = (d : ℝ) := by
    rw [hd]
    push_cast
    ring
  rw [hD]
  by_cases hvz : v = 0
  · have hσz : σ = 0 := by
      rw [hσ, hvz]
      push_cast
      exact Real.sqrt_zero
    rw [if_pos hσz]
    have hlN : (lastN 20 prices).length = 20 := lastN_length_of_le hlen
    have hlNne : lastN 20 prices ≠ [] := by
      intro he
      rw [he] at hlN
      simp at hlN
    have hmean : mean (lastN 20 prices) = (lastN 20 prices).sum / 20 := by
      unfold mean
      rw [hlN]
      norm_num
    have hlast : prices.getLastD 0 = (lastN 20 prices).getLastD 0 :=
      (getLastD_lastN 0 (by norm_num) hlen).symm
    have hd0 : d = 0 := by
      have := npVariance_eq_zero_imp (hv ▸ hvz) _ (getLastD_mem 0 hlNne)
      rw [hd, hlast, this, hmean]
      ring
    constructor
    · intro hdec
      have := of_decide_eq_true hdec
      rw [hd0] at this
      exact absurd this.1 (lt_irrefl 0)
    · intro hcon
      norm_num at hcon
  · have hvpos : 0 < v := lt_of_le_of_ne hv0 (Ne.symm hvz)
    have hσpos : 0 < σ := Real.sqrt_pos.2 (by exact_mod_cast hvpos)
    rw [if_neg (ne_of_gt hσpos)]
    rw [decide_eq_true_iff]
    constructor
    · rintro ⟨hd1, hd2⟩
      have hdR : (0 : ℝ) < (d : ℝ) := by exact_mod_cast hd1
      have hd2R : (64 : ℝ) * (v : ℝ) < 25 * (d : ℝ) ^ 2 := by exact_mod_cast hd2
      rw [lt_div_iff₀ (by positivity)]
      nlinarith [hσsq, sq_nonneg ((d:ℝ) - 8/5 * σ), sq_nonneg ((d:ℝ) + 8/5 * σ)]
    · intro hlt
      rw [lt_div_iff₀ (by positivity)] at hlt
      have hstep : 8/5 * σ < (d : ℝ) := by linarith
      have hdR : (0 : ℝ) < (d : ℝ) := lt_of_le_of_lt (by positivity) hstep
      have hd2R : (64 : ℝ) * (v : ℝ) < 25 * (d : ℝ) ^ 2 := by nlinarith [hσsq]
      exact ⟨by exact_mod_cast hdR, by exact_mod_cast hd2R⟩

/-- Faithfulness bridge: the computable buy-side Bollinger test agrees with
"`percent_b` is available and is below 0.1" on the real-valued definition. -/
theorem bb_extreme_low_spec (prices : List ℚ) (hlen : 20 ≤ prices.length) :
    (bb_extreme_low prices = true ↔
      ∃ pb : ℝ, (calculate_bollinger_bands prices 20 2).percent_b = some pb ∧ pb < (1/10 : ℝ)) := by
  rw [percent_b_eq prices hlen]
  simp only [Option.some.injEq, exists_eq_left']
  unfold bb_extreme_low
  set v : ℚ := npVariance (lastN 20 prices) with hv
  set d : ℚ := prices.getLastD 0 - (lastN 20 prices).sum / 20 with hd
  have hv0 : 0 ≤ v := npVariance_nonneg _
  set σ : ℝ := Real.sqrt ((v : ℚ) : ℝ) with hσ
  have hσ0 : 0 ≤ σ := Real.sqrt_nonneg _
  have hσsq : σ ^ 2 = (v : ℝ) := Real.sq_sqrt (by exact_mod_cast hv0)
  have hD : ((prices.getLastD 0 : ℚ) : ℝ) - (((lastN 20 prices).sum / 20 : ℚ) : ℝ) = (d : ℝ) := by
    rw [hd]
    push_cast
    ring
  rw [hD]
  by_cases hvz : v = 0
  · have hσz : σ = 0 := by
      rw [hσ, hvz]
      push_cast
      exact Real.sqrt_zero
    rw [if_pos hσz]
    have hlN : (lastN 20 prices).length = 20 := lastN_length_of_le hlen
    have hlNne : lastN 20 prices ≠ [] := by
      intro he
      rw [he] at hlN
      simp at hlN
    have hmean : mean (lastN 20 prices) = (lastN 20 prices).sum / 20 := by
      unfold mean
      rw [hlN]
      norm_num
    have hlast : prices.getLastD 0 = (lastN 20 prices).getLastD 0 :=
      (getLastD_lastN 0 (by norm_num) hlen).symm
    have hd0 : d = 0 := by
      have := npVariance_eq_zero_imp (hv ▸ hvz) _ (getLastD_mem 0 hlNne)
      rw [hd, hlast, this, hmean]
      ring
    constructor
    · intro hdec
      have := of_decide_eq_true hdec
      rw [hd0] at this
      exact absurd this.1 (lt_irrefl 0)
    · intro hcon
      norm_num at hcon
  · have hvpos : 0 < v := lt_of_le_of_ne hv0 (Ne.symm hvz)
    have hσpos : 0 < σ := Real.sqrt_pos.2 (by exact_mod_cast hvpos)
    rw [if_neg (ne_of_gt hσpos)]
    rw [decide_eq_true_iff]
    constructor
    · rintro ⟨hd1, hd2⟩
      have hdR : (d : ℝ) < 0 := by exact_mod_cast hd1
      have hd2R : (64 : ℝ) * (v : ℝ) < 25 * (d : ℝ) ^ 2 := by exact_mod_cast hd2
      rw [div_lt_iff₀ (by positivity)]
      nlinarith [hσsq, sq_nonneg ((d:ℝ) - 8/5 * σ), sq_nonneg ((d:ℝ) + 8/5 * σ)]
    · intro hlt
      rw [div_lt_iff₀ (by positivity)] at hlt
      have hstep : (d : ℝ) < -(8/5) * σ := by linarith
      have hdR : (d : ℝ) < 0 := lt_of_lt_of_le hstep (by nlinarith)
      have hd2R : (64 : ℝ) * (v : ℝ) < 25 * (d : ℝ) ^ 2 := by nlinarith [hσsq]
      exact ⟨by exact_mod_cast hdR, by exact_mod_cast hd2R⟩

end TechnicalIndicators

namespace SignalGenerator

open TechnicalIndicators

theorem trendScore_bounds (t : TrendResult) :
    0 ≤ (trendScore t).1 ∧ (trendScore t).1 ≤ 2 ∧ 0 ≤ (trendScore t).2 ∧ (trendScore t).2 ≤ 2 := by
  unfold trendScore
  split_ifs <;> norm_num

theorem rsiScore_bounds (r : Option ℚ) :
    0 ≤ (rsiScore r).1 ∧ (rsiScore r).1 ≤ 2 ∧ 0 ≤ (rsiScore r).2 ∧ (rsiScore r).2 ≤ 2 := by
  unfold rsiScore
  cases r with
  | none => norm_num
  | some x =>
    dsimp only
    split_ifs <;> norm_num

theorem macdScore_bounds (m : MacdResult) :
    0 ≤ (macdScore m).1 ∧ (macdScore m).1 ≤ 2 ∧ 0 ≤ (macdScore m).2 ∧ (macdScore m).2 ≤ 2 := by
  unfold macdScore
  rcases m with ⟨ml, sl, h⟩
  cases ml <;> cases sl <;> cases h <;> dsimp only <;>
    first
      | (split_ifs <;> norm_num)
      | norm_num

theorem bbScore_bounds (lo hi : Bool) :
    0 ≤ (bbScore lo hi).1 ∧ (bbScore lo hi).1 ≤ 3/2 ∧
    0 ≤ (bbScore lo hi).2 ∧ (bbScore lo hi).2 ≤ 3/2 := by
  unfold bbScore
  split_ifs <;> norm_num

theorem volumeScore_bounds (spike : Bool) (t : TrendResult) :
    0 ≤ (volumeScore spike t).1 ∧ (volumeScore spike t).1 ≤ 3/2 ∧
    0 ≤ (volumeScore spike t).2 ∧ (volumeScore spike t).2 ≤ 3/2 := by
  unfold volumeScore
  split_ifs <;> norm_num

theorem stochScore_bounds (k : Option ℚ) :
    0 ≤ (stochScore k).1 ∧ (stochScore k).1 ≤ 1 ∧ 0 ≤ (stochScore k).2 ∧ (stochScore k).2 ≤ 1 := by
  unfold stochScore
  cases k with
  | none => norm_num
  | some x =>
    dsimp only
    split_ifs <;> norm_num

theorem emaScore_bounds (a b : Option ℚ) :
    0 ≤ (emaScore a b).1 ∧ (emaScore a b).1 ≤ 1 ∧ 0 ≤ (emaScore a b).2 ∧ (emaScore a b).2 ≤ 1 := by
  unfold emaScore
  cases a <;> cases b <;> dsimp only <;>
    first
      | (split_ifs <;> norm_num)
      | norm_num

theorem scores_bounds (candles : List Candle) :
    0 ≤ (scores candles).1 ∧ (scores candles).1 ≤ 11 ∧
    0 ≤ (scores candles).2 ∧ (scores candles).2 ≤ 11 := by
  unfold scores
  obtain ⟨a1, a2, a3, a4⟩ := trendScore_bounds (calculate_trend_strength candles)
  obtain ⟨b1, b2, b3, b4⟩ := rsiScore_bounds (calculate_rsi (candles.map Candle.close) 14)
  obtain ⟨c1, c2, c3, c4⟩ := macdScore_bounds (calculate_macd (candles.map Candle.close) 12 26 9)
  obtain ⟨d1, d2, d3, d4⟩ := bbScore_bounds (bb_extreme_low (candles.map Candle.close))
    (bb_extreme_high (candles.map Candle.close))
  obtain ⟨e1, e2, e3, e4⟩ := volumeScore_bounds (detect_volume_spike (candles.map Candle.volume) 2).1
    (calculate_trend_strength candles)
  obtain ⟨f1, f2, f3, f4⟩ := stochScore_bounds
    (calculate_stochastic (candles.map Candle.close) (candles.map Candle.high)
      (candles.map Candle.low) 14 3).k
  obtain ⟨g1, g2, g3, g4⟩ := emaScore_bounds (calculate_ema (candles.map Candle.close) 12)
    (calculate_ema (candles.map Candle.close) 26)
  dsimp only
  refine ⟨by linarith, by linarith, by linarith, by linarith⟩

theorem generate_signal_classification (candles : List Candle) (sym : String)
    (h : 50 ≤ candles.length) :
    ((generate_signal candles sym).signal = "BUY" ↔
      ((scores candles).1 / 11 ≥ 6/10 ∧ (scores candles).1 / 11 > (scores candles).2 / 11)) ∧
    ((generate_signal candles sym).signal = "SELL" ↔
      ((scores candles).2 / 11 ≥ 6/10 ∧ (scores candles).2 / 11 > (scores candles).1 / 11)) ∧
    ((generate_signal candles sym).signal = "HOLD" ↔
      (¬((scores candles).1 / 11 ≥ 6/10 ∧ (scores candles).1 / 11 > (scores candles).2 / 11) ∧
       ¬((scores candles).2 / 11 ≥ 6/10 ∧ (scores candles).2 / 11 > (scores candles).1 / 11))) ∧
    ((generate_signal candles sym).signal = "HOLD" →
      (generate_signal candles sym).confidence =
        max ((scores candles).1 / 11) ((scores candles).2 / 11)) := by
  unfold generate_signal
  rw [if_neg (by omega)]
  dsimp only
  split_ifs with h1 h2
  · have hnot2 : ¬((scores candles).2 / 11 ≥ 6/10 ∧ (scores candles).2 / 11 > (scores candles).1 / 11) :=
      fun hc => absurd hc.2 (not_lt.2 (le_of_lt h1.2))
    exact ⟨iff_of_true rfl h1,
      iff_of_false (show ¬("BUY" : String) = "SELL" by decide) hnot2,
      iff_of_false (show ¬("BUY" : String) = "HOLD" by decide) (fun hc => hc.1 h1),
      fun hc => absurd hc (show ¬("BUY" : String) = "HOLD" by decide)⟩
  · exact ⟨iff_of_false (show ¬("SELL" : String) = "BUY" by decide) h1,
      iff_of_true rfl h2,
      iff_of_false (show ¬("SELL" : String) = "HOLD" by decide) (fun hc => hc.2 h2),
      fun hc => absurd hc (show ¬("SELL" : String) = "HOLD" by decide)⟩
  · exact ⟨iff_of_false (show ¬("HOLD" : String) = "BUY" by decide) h1,
      iff_of_false (show ¬("HOLD" : String) = "SELL" by decide) h2,
      iff_of_true rfl ⟨h1, h2⟩, fun _ => rfl⟩

theorem calculate_trend_strength_flat {candles : List Candle} {p : ℚ}
    (h50 : 50 ≤ candles.length) (hflat : ∀ c ∈ candles, c.close = p) :
    calculate_trend_strength candles = ⟨0, "NEUTRAL", some p, some p, some p⟩ := by
  have hcl : ∀ x ∈ candles.map Candle.close, x = p := by
    intro x hx
    rcases List.mem_map.1 hx with ⟨c, hc, rfl⟩
    exact hflat c hc
  have hlen : (candles.map Candle.close).length = candles.length := List.length_map _ _
  unfold calculate_trend_strength
  rw [if_neg (by omega)]
  dsimp only
  rw [calculate_sma_all_eq hcl (by norm_num) (by omega),
      calculate_sma_all_eq hcl (by norm_num) (by omega),
      calculate_sma_all_eq hcl (by norm_num) (by omega)]
  dsimp only
  split_ifs with hp hgt hlt <;> simp_all

theorem scores_flat {candles : List Candle} {p : ℚ} (h50 : 50 ≤ candles.length)
    (hflat : ∀ c ∈ candles, c.close = p) :
    0 ≤ (scores candles).1 ∧ (scores candles).1 ≤ 1 ∧
    0 ≤ (scores candles).2 ∧ (scores candles).2 ≤ 4 := by
  have hcl : ∀ x ∈ candles.map Candle.close, x = p := by
    intro x hx
    rcases List.mem_map.1 hx with ⟨c, hc, rfl⟩
    exact hflat c hc
  have hlen : (candles.map Candle.close).length = candles.length := List.length_map _ _
  obtain ⟨f1, f2, f3, f4⟩ := stochScore_bounds
    (calculate_stochastic (candles.map Candle.close) (candles.map Candle.high)
      (candles.map Candle.low) 14 3).k
  unfold scores
  dsimp only
  rw [calculate_trend_strength_flat h50 hflat,
      calculate_rsi_all_eq hcl (by norm_num) (by omega),
      calculate_macd_all_eq hcl (by omega),
      bb_extreme_low_all_eq hcl (by omega),
      bb_extreme_high_all_eq hcl (by omega),
      calculate_ema_all_eq hcl (by norm_num) (by omega),
      calculate_ema_all_eq hcl (by norm_num) (by omega)]
  have ht : trendScore ⟨0, "NEUTRAL", some p, some p, some p⟩ = (0, 0) := by
    unfold trendScore
    dsimp only
    rw [if_neg (show ¬("NEUTRAL" : String) = "UP" by decide),
        if_neg (show ¬("NEUTRAL" : String) = "DOWN" by decide)]
  have hr : rsiScore (some 100) = (0, 2) := by
    unfold rsiScore
    norm_num
  have hm : macdScore ⟨some 0, some 0, some 0⟩ = (0, 0) := by
    unfold macdScore
    norm_num
  have hbb : bbScore false false = (0, 0) := rfl
  have hvol : ∀ sp : Bool, volumeScore sp ⟨0, "NEUTRAL", some p, some p, some p⟩ = (0, 0) := by
    intro sp
    unfold volumeScore
    cases sp with
    | false => rfl
    | true =>
      dsimp only
      rw [if_neg (show ¬("NEUTRAL" : String) = "UP" by decide),
          if_neg (show ¬("NEUTRAL" : String) = "DOWN" by decide)]
      simp
  have hema : emaScore (some p) (some p) = (0, 1) := by
    unfold emaScore
    norm_num
  rw [ht, hr, hm, hbb, hvol, hema]
  dsimp only
  refine ⟨by linarith, by linarith, by linarith, by linarith⟩

end SignalGenerator

theorem foldl_preserves {α σ : Type} {P : σ → Prop} {f : σ → α → σ}
    (hf : ∀ s a, P s → P (f s a)) : ∀ (l : List α) (s : σ), P s → P (l.foldl f s) := by
  intro l
  induction l with
  | nil => intro s hs; exact hs
  | cons a t ih =>
    intro s hs
    exact ih _ (hf s a hs)

namespace MicroScalpBot

open PaperTrader SignalGenerator

theorem close_trade_open_sublist (s : PaperTrader) (trade_id : Nat) (p : ℚ) :
    (PaperTrader.close_trade s trade_id p).2.open_trades.Sublist s.open_trades := by
  unfold PaperTrader.close_trade
  cases hf : s.open_trades.find? (fun t => t.id == trade_id) with
  | none => exact List.Sublist.refl _
  | some t =>
    dsimp only
    exact List.eraseP_sublist _

theorem onePerSymbol_mono {s s' : BotState}
    (h : s'.trader.open_trades.Sublist s.trader.open_trades) :
    onePerSymbol s → onePerSymbol s' := by
  intro hs sym
  exact le_trans (List.Sublist.length_le (List.Sublist.filter _ h)) (hs sym)

theorem checkTradeStep_preserves (m : Market) (s : BotState) (t : Trade) :
    onePerSymbol s → onePerSymbol (checkTradeStep m s t) := by
  intro hs
  unfold checkTradeStep
  cases m.price t.symbol with
  | none => exact hs
  | some p =>
    dsimp only
    have hclose : ∀ q : ℚ, onePerSymbol (closeAndUpdate s t.id q) := by
      intro q
      unfold closeAndUpdate
      cases hct : PaperTrader.close_trade s.trader t.id q with
      | mk fst snd =>
        have hsub : snd.open_trades.Sublist s.trader.open_trades := by
          have := close_trade_open_sublist s.trader t.id q
          rw [hct] at this
          exact this
        cases fst with
        | none => exact onePerSymbol_mono hsub hs
        | some c => exact onePerSymbol_mono hsub hs
    split_ifs <;> first
      | exact hs
      | exact hclose p

theorem check_open_trades_preserves (m : Market) (s : BotState) :
    onePerSymbol s → onePerSymbol (check_open_trades m s) := by
  intro hs
  unfold check_open_trades
  exact foldl_preserves (checkTradeStep_preserves m) _ s hs

theorem filter_length_append_singleton (l : List Trade) (tr : Trade)
    (hnone : ∀ t ∈ l, (t.symbol == tr.symbol) = false)
    (hl : ∀ s', (l.filter (fun t => t.symbol == s')).length ≤ 1) :
    ∀ s', (((l ++ [tr]).filter (fun t => t.symbol == s')).length ≤ 1) := by
  intro s'
  rw [List.filter_append, List.length_append]
  by_cases hm : (tr.symbol == s') = true
  · have hsym : tr.symbol = s' := by simpa using hm
    have hemp : l.filter (fun t => t.symbol == s') = [] := by
      rw [List.filter_eq_nil_iff]
      intro a ha
      have hfa := hnone a ha
      rw [← hsym]
      simp [hfa]
    rw [hemp]
    have h1 := List.length_filter_le (fun t => t.symbol == s') [tr]
    simpa using h1
  · have hemp2 : List.filter (fun t => t.symbol == s') [tr] = [] := by
      rw [List.filter_eq_nil_iff]
      intro a ha
      simp only [List.mem_singleton] at ha
      subst ha
      simpa using hm
    rw [hemp2]
    simpa using hl s'

theorem trySymbol_preserves (m : Market) (s : BotState) (sym : String) :
    onePerSymbol s → onePerSymbol (trySymbol m s sym) := by
  intro hs
  unfold trySymbol
  by_cases hany : s.trader.open_trades.any (fun t => t.symbol == sym) = true
  · rw [if_pos hany]
    exact hs
  · rw [if_neg hany]
    have hfalse : (s.trader.open_trades.any fun t => t.symbol == sym) = false := by
      simpa using hany
    have hnone : ∀ t ∈ s.trader.open_trades, (t.symbol == sym) = false := by
      intro t ht
      have hmem := List.any_eq_false.1 hfalse t ht
      simpa using hmem
    dsimp only
    split_ifs with hlen hbuy
    · exact hs
    · cases hind : (generate_signal (m.klines sym) sym).indicators with
      | none => exact hs
      | some ind =>
        dsimp only
        cases hot : PaperTrader.open_trade s.trader sym "BUY" ind.price
          (RiskManager.calculate_dynamic_position_size (get_equity s.trader) ind.price ind.atr
            (generate_signal (m.klines sym) sym).confidence).1
          (RiskManager.calculate_stop_loss ind.price "BUY" ind.atr)
          (RiskManager.calculate_take_profit ind.price "BUY"
            (RiskManager.calculate_stop_loss ind.price "BUY" ind.atr)) "micro_scalp" with
        | mk fst snd =>
          have hopen : snd = s.trader ∨
              ∃ tr : Trade, tr.symbol = sym ∧
                snd.open_trades = s.trader.open_trades ++ [tr] := by
            unfold PaperTrader.open_trade at hot
            dsimp only at hot
            split_ifs at hot with hcost
            · left
              rw [Prod.mk.injEq] at hot
              exact hot.2.symm
            · right
              rw [Prod.mk.injEq] at hot
              refine ⟨{ id := s.trader.trade_id_counter + 1, symbol := sym, side := "BUY",
                        entry_price := ind.price, exit_price := 0,
                        quantity := (RiskManager.calculate_dynamic_position_size
                          (get_equity s.trader) ind.price ind.atr
                          (generate_signal (m.klines sym) sym).confidence).1,
                        profit_loss := 0, profit_loss_pct := 0, status := "OPEN",
                        strategy := "micro_scalp",
                        stop_loss := RiskManager.calculate_stop_loss ind.price "BUY" ind.atr,
                        take_profit := RiskManager.calculate_take_profit ind.price "BUY"
                          (RiskManager.calculate_stop_loss ind.price "BUY" ind.atr) }, rfl, ?_⟩
              rw [← hot.2]
          rcases hopen with hsnd | ⟨tr, htrsym, happ⟩
          · cases fst with
            | none =>
              intro sym'
              dsimp only
              rw [hsnd]
              exact hs sym'
            | some c =>
              intro sym'
              dsimp only
              rw [hsnd]
              exact hs sym'
          · cases fst with
            | none =>
              intro sym'
              dsimp only
              rw [happ]
              exact filter_length_append_singleton s.trader.open_trades tr
                (fun t ht => htrsym ▸ hnone t ht) (fun u => hs u) sym'
            | some c =>
              intro sym'
              dsimp only
              rw [happ]
              exact filter_length_append_singleton s.trader.open_trades tr
                (fun t ht => htrsym ▸ hnone t ht) (fun u => hs u) sym'
    · exact hs

theorem check_new_signals_preserves (m : Market) (symbols : List String) (s : BotState) :
    onePerSymbol s → onePerSymbol (check_new_signals m symbols s) := by
  intro hs
  unfold check_new_signals
  dsimp only
  set s0 := if m.newDay = true then { s with risk := RiskManager.reset } else s with hs0def
  have hs0 : onePerSymbol s0 := by
    rw [hs0def]
    split_ifs
    · intro sym
      exact hs sym
    · exact hs
  split_ifs
  · exact foldl_preserves (fun st sym h => trySymbol_preserves m st sym h) symbols s0 hs0
  · exact hs0

theorem botCycle_preserves (symbols : List String) (s : BotState) (m : Market) :
    onePerSymbol s → onePerSymbol (botCycle symbols s m) := by
  intro hs
  unfold botCycle
  exact check_new_signals_preserves m symbols _ (check_open_trades_preserves m s hs)

end MicroScalpBot

/-! ## Claim theorems -/

/-- C3: every indicator of `TechnicalIndicators` (SMA, EMA, RSI, MACD,
Bollinger bands, stochastic, ATR) returns its explicit "not enough data"
sentinel — `none`, or a dict whose entries are all `none` — whenever the
input is shorter than the indicator's minimum sample requirement (`period`
for SMA/EMA/Bollinger/stochastic, `period + 1` for RSI/ATR, `slow + signal`
for MACD); being total Lean functions, they raise nothing. -/
theorem indicators_short_input_sentinels (prices highs lows : List ℚ)
    (candles : List Candle) (p fast slow sig : Nat) :
    (prices.length < p → TechnicalIndicators.calculate_sma prices p = none) ∧
    (prices.length < p → TechnicalIndicators.calculate_ema prices p = none) ∧
    (prices.length < p + 1 → TechnicalIndicators.calculate_rsi prices p = none) ∧
    (prices.length < slow + sig →
      TechnicalIndicators.calculate_macd prices fast slow sig = ⟨none, none, none⟩) ∧
    (prices.length < p →
      TechnicalIndicators.calculate_bollinger_bands prices p 2 = ⟨none, none, none, none, none⟩) ∧
    ((prices.length < p ∨ highs.length < p ∨ lows.length < p) →
      TechnicalIndicators.calculate_stochastic prices highs lows p 3 = ⟨none, none⟩) ∧
    (candles.length < p + 1 → TechnicalIndicators.calculate_atr candles p = none) := by
  refine ⟨?_, ?_, ?_, ?_, ?_, ?_, ?_⟩ <;> intro h
  · rw [TechnicalIndicators.calculate_sma, if_pos h]
  · rw [TechnicalIndicators.calculate_ema, if_pos h]
  · rw [TechnicalIndicators.calculate_rsi, if_pos h]
  · rw [TechnicalIndicators.calculate_macd, if_pos h]
  · rw [TechnicalIndicators.calculate_bollinger_bands, if_pos h]
  · rw [TechnicalIndicators.calculate_stochastic, if_pos h]
  · rw [TechnicalIndicators.calculate_atr, if_pos h]

unseal Rat.add Rat.mul Rat.inv Rat.sub in
/-- C3 witness: the sentinels at concrete too-short inputs. -/
theorem indicators_short_input_sentinels_witness :
    TechnicalIndicators.calculate_sma [(1:ℚ)] 2 = none ∧
    TechnicalIndicators.calculate_ema [(1:ℚ)] 2 = none ∧
    TechnicalIndicators.calculate_rsi [(1:ℚ)] 2 = none ∧
    TechnicalIndicators.calculate_macd [(1:ℚ)] 12 26 9 = ⟨none, none, none⟩ ∧
    TechnicalIndicators.calculate_bollinger_bands [(1:ℚ)] 2 2 = ⟨none, none, none, none, none⟩ ∧
    TechnicalIndicators.calculate_stochastic [(1:ℚ)] [] [] 2 3 = ⟨none, none⟩ ∧
    TechnicalIndicators.calculate_atr [] 2 = none := by
  have h := indicators_short_input_sentinels [(1:ℚ)] [] [] [] 2 12 26 9
  exact ⟨h.1 (by decide), h.2.1 (by decide), h.2.2.1 (by decide), h.2.2.2.1 (by decide),
    h.2.2.2.2.1 (by decide), h.2.2.2.2.2.1 (Or.inr (Or.inl (by decide))),
    h.2.2.2.2.2.2 (by decide)⟩

unseal Rat.add Rat.mul Rat.inv Rat.sub in
/-- C2 counterexample: `TechnicalIndicators.calculate_sma` does NOT fall back
to the mean of the available sequence below `period` — on `[1]` with period 2
it returns `none`, not `some (mean [1])`. -/
theorem sma_short_no_mean_fallback :
    TechnicalIndicators.calculate_sma [(1:ℚ)] 2 ≠ some (mean [(1:ℚ)]) := by decide

/-- C2 amended: for every non-empty price sequence shorter than the period,
v2's `TechnicalIndicators.calculate_sma`/`calculate_ema` return the sentinel
`none` (and never raise); the whole-sequence-mean fallback belongs to the v1
bot (`micro_scalp_bot.py`, class `SignalGenerator`), whose `calculate_sma`
and `calculate_ema` do return the mean of the entire available sequence. -/
theorem short_input_sentinel_and_v1_fallback (prices : List ℚ) (p : Nat)
    (hne : prices ≠ []) (hlt : prices.length < p) :
    TechnicalIndicators.calculate_sma prices p = none ∧
    TechnicalIndicators.calculate_ema prices p = none ∧
    MicroScalpV1.calculate_sma prices p = mean prices ∧
    MicroScalpV1.calculate_ema prices p = mean prices := by
  refine ⟨?_, ?_, ?_, ?_⟩
  · rw [TechnicalIndicators.calculate_sma, if_pos hlt]
  · rw [TechnicalIndicators.calculate_ema, if_pos hlt]
  · rw [MicroScalpV1.calculate_sma, if_pos hlt]
    rfl
  · rw [MicroScalpV1.calculate_ema, if_pos hlt]
    rfl

unseal Rat.add Rat.mul Rat.inv Rat.sub in
/-- C2 witness: the amended statement at `prices = [1]`, `p = 2`. -/
theorem short_input_sentinel_and_v1_fallback_witness :
    (([(1:ℚ)] : List ℚ) ≠ [] ∧ [(1:ℚ)].length < 2) ∧
    (TechnicalIndicators.calculate_sma [(1:ℚ)] 2 = none ∧
     TechnicalIndicators.calculate_ema [(1:ℚ)] 2 = none ∧
     MicroScalpV1.calculate_sma [(1:ℚ)] 2 = mean [(1:ℚ)] ∧
     MicroScalpV1.calculate_ema [(1:ℚ)] 2 = mean [(1:ℚ)]) :=
  ⟨⟨by decide, by decide⟩,
   short_input_sentinel_and_v1_fallback [(1:ℚ)] 2 (by decide) (by decide)⟩

unseal Rat.add Rat.mul Rat.inv Rat.sub in
/-- C1 counterexample: on the spec's own concrete scenario (60 candles,
closes 50000, 50010, ..., +10 each step, volume constant 500),
`SignalGenerator.generate_signal` does NOT return a BUY at confidence ≥ 0.6. -/
theorem rising_scenario_not_buy :
    ¬((SignalGenerator.generate_signal risingCandles "BTCUSDT").signal = "BUY" ∧
      (SignalGenerator.generate_signal risingCandles "BTCUSDT").confidence ≥ 6/10) := by
  decide

unseal Rat.add Rat.mul Rat.inv Rat.sub in
/-- C1 amended: on that scenario the classifier returns HOLD with confidence
9/22 ≈ 0.409: the monotone rise drives RSI to 100, %B above 0.9 and the
stochastic to 100, which all score as overbought SELL evidence (2 + 1.5 + 1),
while the buy side collects only trend (2) and EMA crossover (1) — the MACD
line equals its signal line exactly on a linear ramp, adding nothing — so
buy confidence is 3/11 < 0.6. -/
theorem rising_scenario_holds :
    (SignalGenerator.generate_signal risingCandles "BTCUSDT").signal = "HOLD" ∧
    (SignalGenerator.generate_signal risingCandles "BTCUSDT").confidence = 9/22 := by
  decide

/-- C4: for ≥ 50 candles the final classification follows the scores exactly:
BUY iff `buy_score/11 ≥ 0.6` and strictly above `sell_score/11`; SELL under
the symmetric condition; HOLD otherwise, and a HOLD carries the larger of the
two confidences. -/
theorem signal_classification_rule (candles : List Candle) (sym : String)
    (h : 50 ≤ candles.length) :
    ((SignalGenerator.generate_signal candles sym).signal = "BUY" ↔
      ((SignalGenerator.scores candles).1 / 11 ≥ 6/10 ∧
       (SignalGenerator.scores candles).1 / 11 > (SignalGenerator.scores candles).2 / 11)) ∧
    ((SignalGenerator.generate_signal candles sym).signal = "SELL" ↔
      ((SignalGenerator.scores candles).2 / 11 ≥ 6/10 ∧
       (SignalGenerator.scores candles).2 / 11 > (SignalGenerator.scores candles).1 / 11)) ∧
    ((SignalGenerator.generate_signal candles sym).signal = "HOLD" ↔
      (¬((SignalGenerator.scores candles).1 / 11 ≥ 6/10 ∧
         (SignalGenerator.scores candles).1 / 11 > (SignalGenerator.scores candles).2 / 11) ∧
       ¬((SignalGenerator.scores candles).2 / 11 ≥ 6/10 ∧
         (SignalGenerator.scores candles).2 / 11 > (SignalGenerator.scores candles).1 / 11))) ∧
    ((SignalGenerator.generate_signal candles sym).signal = "HOLD" →
      (SignalGenerator.generate_signal candles sym).confidence =
        max ((SignalGenerator.scores candles).1 / 11) ((SignalGenerator.scores candles).2 / 11)) :=
  SignalGenerator.generate_signal_classification candles sym h

unseal Rat.add Rat.mul Rat.inv Rat.sub in
/-- C4 witness: the classification rule at a concrete 60-candle list. -/
theorem signal_classification_rule_witness :
    50 ≤ flatCandles.length ∧
    (((SignalGenerator.generate_signal flatCandles "BTCUSDT").signal = "BUY" ↔
      ((SignalGenerator.scores flatCandles).1 / 11 ≥ 6/10 ∧
       (SignalGenerator.scores flatCandles).1 / 11 > (SignalGenerator.scores flatCandles).2 / 11)) ∧
    ((SignalGenerator.generate_signal flatCandles "BTCUSDT").signal = "SELL" ↔
      ((SignalGenerator.scores flatCandles).2 / 11 ≥ 6/10 ∧
       (SignalGenerator.scores flatCandles).2 / 11 > (SignalGenerator.scores flatCandles).1 / 11)) ∧
    ((SignalGenerator.generate_signal flatCandles "BTCUSDT").signal = "HOLD" ↔
      (¬((SignalGenerator.scores flatCandles).1 / 11 ≥ 6/10 ∧
         (SignalGenerator.scores flatCandles).1 / 11 > (SignalGenerator.scores flatCandles).2 / 11) ∧
       ¬((SignalGenerator.scores flatCandles).2 / 11 ≥ 6/10 ∧
         (SignalGenerator.scores flatCandles).2 / 11 > (SignalGenerator.scores flatCandles).1 / 11))) ∧
    ((SignalGenerator.generate_signal flatCandles "BTCUSDT").signal = "HOLD" →
      (SignalGenerator.generate_signal flatCandles "BTCUSDT").confidence =
        max ((SignalGenerator.scores flatCandles).1 / 11)
          ((SignalGenerator.scores flatCandles).2 / 11))) :=
  ⟨by decide, signal_classification_rule flatCandles "BTCUSDT" (by decide)⟩

/-- C6: a flat closing-price sequence (all closes equal, hence no change
between consecutive closes) of at least 50 candles always classifies as
HOLD, whatever the highs, lows and volumes do. -/
theorem flat_prices_yield_hold (candles : List Candle) (p : ℚ) (sym : String)
    (h50 : 50 ≤ candles.length) (hflat : ∀ c ∈ candles, c.close = p) :
    (SignalGenerator.generate_signal candles sym).signal = "HOLD" := by
  obtain ⟨-, -, hh, -⟩ := SignalGenerator.generate_signal_classification candles sym h50
  obtain ⟨s0, s1, s2, s4⟩ := SignalGenerator.scores_flat h50 hflat
  apply hh.2
  constructor
  · rintro ⟨hge, -⟩
    rw [ge_iff_le, le_div_iff₀ (by norm_num : (0:ℚ) < 11)] at hge
    linarith
  · rintro ⟨hge, -⟩
    rw [ge_iff_le, le_div_iff₀ (by norm_num : (0:ℚ) < 11)] at hge
    linarith

unseal Rat.add Rat.mul Rat.inv Rat.sub in
/-- C6 witness: the flat scenario at 60 concrete candles. -/
theorem flat_prices_yield_hold_witness :
    (50 ≤ flatCandles.length ∧ (∀ c ∈ flatCandles, c.close = 100)) ∧
    (SignalGenerator.generate_signal flatCandles "ETHUSDT").signal = "HOLD" :=
  ⟨⟨by decide, by decide⟩,
   flat_prices_yield_hold flatCandles 100 "ETHUSDT" (by decide) (by decide)⟩

/-- C9: every signal's confidence lies in [0,1]: the insufficient-data branch
returns 0, and in the scoring branch neither score can exceed the total
weight 11, so both `score/11` quotients lie in [0,1] (the BUY/SELL branches
additionally clamp with `min · 1`). -/
theorem signal_confidence_in_unit_interval (candles : List Candle) (sym : String) :
    0 ≤ (SignalGenerator.generate_signal candles sym).confidence ∧
    (SignalGenerator.generate_signal candles sym).confidence ≤ 1 := by
  obtain ⟨b0, b11, s0, s11⟩ := SignalGenerator.scores_bounds candles
  have hb01 : 0 ≤ (SignalGenerator.scores candles).1 / 11 := by positivity
  have hs01 : 0 ≤ (SignalGenerator.scores candles).2 / 11 := by positivity
  have hb1 : (SignalGenerator.scores candles).1 / 11 ≤ 1 :=
    (div_le_one (by norm_num)).2 b11
  have hs1 : (SignalGenerator.scores candles).2 / 11 ≤ 1 :=
    (div_le_one (by norm_num)).2 s11
  unfold SignalGenerator.generate_signal
  dsimp only
  split_ifs with h h1 h2
  · exact ⟨le_refl 0, zero_le_one⟩
  · exact ⟨le_min hb01 zero_le_one, min_le_right _ _⟩
  · exact ⟨le_min hs01 zero_le_one, min_le_right _ _⟩
  · exact ⟨le_trans hb01 (le_max_left _ _), max_le hb1 hs1⟩

/-- C5: for every price sequence of length ≥ 15, `calculate_rsi` with
period 14 returns exactly 100 when every one of the last 14 deltas is
non-negative (equivalently, when the average loss is zero), and otherwise
`100 - 100/(1 + avg_gain/avg_loss)`, where `avg_gain` is the mean of the
positive changes and `avg_loss` the mean of the magnitudes of the negative
changes over the last 14 deltas. -/
theorem rsi_formula_spec (prices : List ℚ) (h : 15 ≤ prices.length) :
    TechnicalIndicators.calculate_rsi prices 14 =
      some (if ((lastN 14 (changes prices)).map (fun d => max (-d) 0)).sum / 14 = 0 then 100
            else 100 - 100 / (1 +
              (((lastN 14 (changes prices)).map (fun d => max d 0)).sum / 14) /
              (((lastN 14 (changes prices)).map (fun d => max (-d) 0)).sum / 14))) ∧
    (((lastN 14 (changes prices)).map (fun d => max (-d) 0)).sum / 14 = 0 ↔
      ∀ d ∈ lastN 14 (changes prices), 0 ≤ d) := by
  have hmapg : (changes prices).map (fun c => if c > 0 then c else 0) =
      (changes prices).map (fun d => max d 0) := by
    apply List.map_congr_left
    intro c _
    rcases lt_or_le 0 c with hc | hc
    · rw [if_pos hc]
      exact (max_eq_left hc.le).symm
    · rw [if_neg (not_lt.2 hc)]
      exact (max_eq_right hc).symm
  have hmapl : (changes prices).map (fun c => if c > 0 then (0:ℚ) else |c|) =
      (changes prices).map (fun d => max (-d) 0) := by
    apply List.map_congr_left
    intro c _
    rcases lt_or_le 0 c with hc | hc
    · rw [if_pos hc]
      exact (max_eq_right (by linarith)).symm
    · rw [if_neg (not_lt.2 hc), abs_of_nonpos hc]
      exact (max_eq_left (by linarith)).symm
  constructor
  · rw [TechnicalIndicators.calculate_rsi, if_neg (by omega)]
    dsimp only
    rw [hmapg, hmapl, lastN_map, lastN_map,
        if_neg (by rw [List.length_map, changes_length]; omega)]
    norm_num
    split_ifs with h0
    · rfl
    · rfl
  · have hnn : ∀ y ∈ (lastN 14 (changes prices)).map (fun d => max (-d) 0), 0 ≤ y := by
      intro y hy
      rcases List.mem_map.1 hy with ⟨z, _, rfl⟩
      exact le_max_right _ _
    constructor
    · intro hq d hd
      have hsum : ((lastN 14 (changes prices)).map (fun d => max (-d) 0)).sum = 0 := by
        rcases div_eq_zero_iff.1 hq with h' | h'
        · exact h'
        · exact absurd h' (by norm_num)
      have hall := (sum_eq_zero_iff_of_nonneg hnn).1 hsum
      have hm : max (-d) 0 = 0 := hall _ (List.mem_map_of_mem (fun d => max (-d) 0) hd)
      by_contra hneg
      push_neg at hneg
      rw [max_eq_left (by linarith : (0:ℚ) ≤ -d)] at hm
      linarith
    · intro hdall
      have hall : ∀ y ∈ (lastN 14 (changes prices)).map (fun d => max (-d) 0), y = 0 := by
        intro y hy
        rcases List.mem_map.1 hy with ⟨z, hz, rfl⟩
        have := hdall z hz
        rw [max_eq_right (by linarith : -z ≤ (0:ℚ))]
      rw [sum_of_all_eq hall]
      simp

unseal Rat.add Rat.mul Rat.inv Rat.sub in
/-- C5 witness: the RSI formula at the concrete sequence 1, 2, ..., 15. -/
theorem rsi_formula_spec_witness :
    15 ≤ ([1, 2, 3, 4, 5, 6, 7, 8, 9, 10, 11, 12, 13, 14, 15] : List ℚ).length ∧
    (TechnicalIndicators.calculate_rsi [1, 2, 3, 4, 5, 6, 7, 8, 9, 10, 11, 12, 13, 14, 15] 14 =
      some (if ((lastN 14 (changes [1, 2, 3, 4, 5, 6, 7, 8, 9, 10, 11, 12, 13, 14, 15])).map
                  (fun d => max (-d) 0)).sum / 14 = 0 then 100
            else 100 - 100 / (1 +
              (((lastN 14 (changes [1, 2, 3, 4, 5, 6, 7, 8, 9, 10, 11, 12, 13, 14, 15])).map
                  (fun d => max d 0)).sum / 14) /
              (((lastN 14 (changes [1, 2, 3, 4, 5, 6, 7, 8, 9, 10, 11, 12, 13, 14, 15])).map
                  (fun d => max (-d) 0)).sum / 14)))) ∧
    (((lastN 14 (changes [1, 2, 3, 4, 5, 6, 7, 8, 9, 10, 11, 12, 13, 14, 15])).map
        (fun d => max (-d) 0)).sum / 14 = 0 ↔
      ∀ d ∈ lastN 14 (changes [1, 2, 3, 4, 5, 6, 7, 8, 9, 10, 11, 12, 13, 14, 15]), 0 ≤ d) :=
  ⟨by decide, rsi_formula_spec [1, 2, 3, 4, 5, 6, 7, 8, 9, 10, 11, 12, 13, 14, 15] (by decide)⟩

/-- C10: `open_trade` is atomic on failure — when the entry cost including
the fee, `price*quantity*(1 + fee_rate)`, exceeds 95% of the balance, it
returns `none` and the state (balance, fees, id counter, open list, all of
it) is unchanged. -/
theorem open_trade_insufficient_balance_atomic (s : PaperTrader) (sym side : String)
    (P Q sl tp : ℚ) (strat : String)
    (hover : P * Q * (1 + fee_rate) > s.balance * (95/100)) :
    PaperTrader.open_trade s sym side P Q sl tp strat = (none, s) := by
  unfold PaperTrader.open_trade
  dsimp only
  rw [if_pos (show P * Q + P * Q * fee_rate > s.balance * (95/100) by
    have he : P * Q + P * Q * fee_rate = P * Q * (1 + fee_rate) := by ring
    rw [he]
    exact hover)]

unseal Rat.add Rat.mul Rat.inv Rat.sub in
/-- C10 witness: a trade of cost 10×2×1.001 = 20.02 against a balance of 10
(95% of which is 9.5) is refused and the state is returned untouched. -/
theorem open_trade_insufficient_balance_atomic_witness :
    (10:ℚ) * 2 * (1 + fee_rate) > (PaperTrader.init 10).balance * (95/100) ∧
    PaperTrader.open_trade (PaperTrader.init 10) "BTCUSDT" "BUY" 10 2 9 12 "micro_scalp" =
      (none, PaperTrader.init 10) :=
  ⟨by decide,
   open_trade_insufficient_balance_atomic (PaperTrader.init 10) "BTCUSDT" "BUY" 10 2 9 12
     "micro_scalp" (by decide)⟩

/-- C8: at most one OPEN trade per symbol, preserved by arbitrarily many
polling cycles (`check_open_trades` then `check_new_signals`): a cycle closes
trades (which can only shrink the per-symbol count) and opens a trade for a
symbol only after checking that no open trade for it exists. -/
theorem one_open_trade_per_symbol_invariant (symbols : List String)
    (ms : List MicroScalpBot.Market) (s : MicroScalpBot.BotState)
    (h : MicroScalpBot.onePerSymbol s) :
    MicroScalpBot.onePerSymbol (ms.foldl (MicroScalpBot.botCycle symbols) s) :=
  foldl_preserves (fun st m hm => MicroScalpBot.botCycle_preserves symbols st m hm) ms s h

/-- C8 witness: the invariant holds of a fresh bot and is preserved through a
concrete cycle. -/
theorem one_open_trade_per_symbol_invariant_witness :
    MicroScalpBot.onePerSymbol initialBot ∧
    MicroScalpBot.onePerSymbol
      ([trivialMarket].foldl (MicroScalpBot.botCycle ["BTCUSDT", "ETHUSDT"]) initialBot) := by
  have h0 : MicroScalpBot.onePerSymbol initialBot := by
    intro sym
    simp [initialBot, PaperTrader.init, MicroScalpBot.onePerSymbol]
  exact ⟨h0,
    one_open_trade_per_symbol_invariant ["BTCUSDT", "ETHUSDT"] [trivialMarket] initialBot h0⟩

/-- What `close_trade` does when the trade is found and is a BUY: credits the
exit value and records the P&L net of the exit fee. -/
theorem close_trade_spec (s : PaperTrader) (tr : Trade) (E : ℚ)
    (hfind : s.open_trades.find? (fun t => t.id == tr.id) = some tr)
    (hside : tr.side = "BUY") :
    ∃ tr2 s'', PaperTrader.close_trade s tr.id E = (some tr2, s'') ∧
      s''.balance = s.balance + E * tr.quantity ∧
      tr2.profit_loss = (E - tr.entry_price) * tr.quantity - E * tr.quantity * fee_rate := by
  unfold PaperTrader.close_trade
  rw [hfind]
  dsimp only
  rw [if_pos hside]
  exact ⟨_, _, rfl, rfl, rfl⟩

/-- C7: opening a BUY paper trade at price P and quantity Q debits the balance
by exactly P·Q·(1+fee_rate); closing it at exit price E credits exactly E·Q
and records profit_loss = (E−P)·Q − E·Q·fee_rate.  (The id-freshness
hypothesis rules out a pre-existing open trade with the same id, which the
counter guarantees in every reachable state.) -/
theorem paper_trade_balance_accounting (s : PaperTrader) (sym : String)
    (P Q sl tp E : ℚ) (strat : String)
    (hid : ∀ t ∈ s.open_trades, t.id ≠ s.trade_id_counter + 1)
    (tr tr2 : Trade) (s' s'' : PaperTrader)
    (hopen : PaperTrader.open_trade s sym "BUY" P Q sl tp strat = (some tr, s'))
    (hclose : PaperTrader.close_trade s' tr.id E = (some tr2, s'')) :
    s'.balance = s.balance - P * Q * (1 + fee_rate) ∧
    s''.balance = s'.balance + E * Q ∧
    tr2.profit_loss = (E - P) * Q - E * Q * fee_rate := by
  unfold PaperTrader.open_trade at hopen
  dsimp only at hopen
  split_ifs at hopen with hcost
  · exact absurd (congrArg Prod.fst hopen) (by simp)
  · rw [Prod.mk.injEq, Option.some.injEq] at hopen
    obtain ⟨htr, hs'⟩ := hopen
    have hbal1 : s'.balance = s.balance - P * Q * (1 + fee_rate) := by
      rw [← hs']
      show s.balance - (P * Q + P * Q * fee_rate) = _
      ring
    have hfind : s'.open_trades.find? (fun t => t.id == tr.id) = some tr := by
      rw [← hs', ← htr]
      dsimp only
      rw [List.find?_append]
      have hleft : s.open_trades.find?
          (fun t => t.id == s.trade_id_counter + 1) = none := by
        rw [List.find?_eq_none]
        intro x hx
        simpa using hid x hx
      rw [hleft]
      simp
    have hside : tr.side = "BUY" := by rw [← htr]
    have hq : tr.quantity = Q := by rw [← htr]
    have hp : tr.entry_price = P := by rw [← htr]
    obtain ⟨tr2', s''2, heq, hbal, hpl⟩ := close_trade_spec s' tr E hfind hside
    rw [heq, Prod.mk.injEq, Option.some.injEq] at hclose
    obtain ⟨htr2, hs''⟩ := hclose
    refine ⟨hbal1, ?_, ?_⟩
    · rw [← hs'', hbal, hq]
    · rw [← htr2, hpl, hq, hp]

unseal Rat.add Rat.mul Rat.inv Rat.sub in
/-- C7 witness: a concrete round trip on a fresh trader — open a BUY of 2
units at 10, close at 11 — with the accounting identities instantiated. -/
theorem paper_trade_balance_accounting_witness :
    ((∀ t ∈ (PaperTrader.init 10000).open_trades,
        t.id ≠ (PaperTrader.init 10000).trade_id_counter + 1) ∧
     PaperTrader.open_trade (PaperTrader.init 10000) "BTCUSDT" "BUY" 10 2 9 12 "micro_scalp" =
       (some wTr, wS') ∧
     PaperTrader.close_trade wS' wTr.id 11 = (some wTr2, wS'')) ∧
    (wS'.balance = (PaperTrader.init 10000).balance - 10 * 2 * (1 + fee_rate) ∧
     wS''.balance = wS'.balance + 11 * 2 ∧
     wTr2.profit_loss = (11 - 10) * 2 - 11 * 2 * fee_rate) :=
  ⟨⟨by decide, by decide, by decide⟩,
   paper_trade_balance_accounting (PaperTrader.init 10000) "BTCUSDT" 10 2 9 12 11 "micro_scalp"
     (by decide) wTr wTr2 wS' wS'' (by decide) (by decide)⟩
